import Mathlib

/-!
Verification of the `gofw` httpx policy layer.

Shallow embedding of the resilience policies of `httpx/policy`
(`retry.go`, `circuitbreaker.go`, `bulkhead.go`, the timeout policy and the
`Chain` combinator of `metrics.go`), together with proofs of the behavioural
claims about them.

Modelling conventions:
* Go `time.Time` / `time.Duration` values are natural numbers (abstract time
  units); a monotonic clock value is passed explicitly where the code calls
  `time.Now()`.
* Go `int` is `Int`; counters that are only ever incremented from zero or
  reset to zero are `Nat` (their reachable values are non-negative).
* Go error values are the inductive `GoErr`.  `errors.New` allocates a fresh
  identity, so every `errors.New` call site is given its own numeric id:
  two errors with the same message but different ids are distinct values,
  exactly as two distinct `*errorString` pointers are in Go.
  `errors.Is` is `errsIs`, which compares identities through the unwrap
  chain of `errors.Join` results.
* Fallible downstream calls (`next`) return an `Attempt`, a pair of an
  optional response and an optional error.
-/

/-- Go error values.  `mk id msg` is the value produced by one `errors.New`
call (identity `id`); `netErr` marks errors produced by transport I/O
(`net.Error` values); `deadlineExceeded` and `canceled` are the two context
sentinels; `join1`/`join2` are the results of `errors.Join` applied to one
resp. two non-nil errors. -/
inductive GoErr where
  | deadlineExceeded
  | canceled
  | mk (id : Nat) (msg : String)
  | netErr (id : Nat) (msg : String)
  | join1 (a : GoErr)
  | join2 (a b : GoErr)
deriving DecidableEq

/-- `errors.Is`: the target is found by identity at the top level or anywhere
in the unwrap chain (a `joinError` unwraps to its list of members). -/
def errsIs : GoErr → GoErr → Bool
  | .join1 a, t => decide (GoErr.join1 a = t) || errsIs a t
  | .join2 a b, t => decide (GoErr.join2 a b = t) || errsIs a t || errsIs b t
  | e, t => decide (e = t)

/-- `errors.Join(a, b)` where `b` is known non-nil: nil members are dropped. -/
def goJoin (a : Option GoErr) (b : GoErr) : GoErr :=
  match a with
  | some x => .join2 x b
  | none => .join1 b

/-- An HTTP response as the policies see it: the status code plus the state of
its body (`hasBody` = `resp.Body != nil`; the two flags record whether the
policy layer has drained resp. closed that body). -/
structure Resp where
  statusCode : Int
  hasBody : Bool
  bodyDrained : Bool
  bodyClosed : Bool
deriving DecidableEq

/-- The request body as the retry policy reads it: an in-memory byte source
(always readable) or a reader whose `io.ReadAll` fails with an error. -/
inductive BodySrc where
  | bytes (data : List Nat)
  | failing (e : GoErr)

/-- An `*http.Request` restricted to the fields the policies consult. -/
structure Request where
  method : String
  body : Option BodySrc

/-- Outcome of one invocation of a downstream executor (`next`). -/
structure Attempt where
  resp : Option Resp
  err : Option GoErr

/-- `isIdempotent` (retry.go): GET, PUT, DELETE, HEAD, OPTIONS and TRACE are
idempotent; everything else (POST, PATCH, ...) is not. -/
def isIdempotent (method : String) : Bool :=
  match method with
  | "GET" | "PUT" | "DELETE" | "HEAD" | "OPTIONS" | "TRACE" => true
  | _ => false

/-! ## Sentinel errors (httpx/errors.go) and the error values the policies
actually allocate.  The ids are arbitrary but pairwise distinct: each stands
for one distinct `errors.New` allocation. -/

/-- `httpx.ErrCircuitOpen` (errors.go). -/
def httpxErrCircuitOpen : GoErr := .mk 1 "circuit breaker is open"

/-- `httpx.ErrBulkheadFull` (errors.go). -/
def httpxErrBulkheadFull : GoErr := .mk 2 "bulkhead capacity exceeded"

/-- `httpx.ErrTimeout` (errors.go). -/
def httpxErrTimeout : GoErr := .mk 3 "request timeout"

/-- `httpx.ErrMaxRetriesExceeded` (errors.go). -/
def httpxErrMaxRetriesExceeded : GoErr := .mk 4 "max retry attempts exceeded"

/-- The error the circuit breaker policy returns on short-circuit:
`errors.New("circuit breaker is open")` in `CircuitBreakerPolicy.Execute`. -/
def circuitOpenErr : GoErr := .mk 101 "circuit breaker is open"

/-- The error the bulkhead policy returns when the semaphore is full:
`errors.New("bulkhead capacity exceeded")` in `BulkheadPolicy.Execute`. -/
def bulkheadFullErr : GoErr := .mk 102 "bulkhead capacity exceeded"

/-- The error the timeout policy returns on deadline expiry:
`errors.New("request timeout")` in `TimeoutPolicy.Execute`. -/
def timeoutErr : GoErr := .mk 103 "request timeout"

/-- The error the retry policy joins in on exhaustion:
`errors.New("max retry attempts exceeded")` in `RetryPolicy.Execute`. -/
def maxRetriesErr : GoErr := .mk 104 "max retry attempts exceeded"

/-! ## Retry policy (retry.go) -/

/-- `RetryConfig` as the caller fills it in; a Go zero value has
`maxAttempts = 0`, both `Option` fields `none` and `onlyIdempotent = false`.
The `Backoff` field is omitted: its value only feeds `time.After` and hence
never influences any observable modelled here (whether the wait is cut short
by context cancellation is the separate `waitCancelled` observation below). -/
structure RetryConfig where
  maxAttempts : Int
  shouldRetryCustom : Option (Option Resp → Option GoErr → Bool)
  retryableStatusCodes : Option (List Int)
  onlyIdempotent : Bool

/-- The configuration held by a constructed `RetryPolicy`. -/
structure RetryPolicy where
  maxAttempts : Int
  shouldRetryCustom : Option (Option Resp → Option GoErr → Bool)
  retryableStatusCodes : List Int
  onlyIdempotent : Bool

/-- `NewRetryPolicy` (retry.go): defaults `MaxAttempts` 0 → 3 and
`RetryableStatusCodes` nil → [429, 500, 502, 503, 504].  Note that the code
applies no default to `OnlyIdempotent`: the Go zero value `false` is kept. -/
def newRetryPolicy (c : RetryConfig) : RetryPolicy :=
  { maxAttempts := if c.maxAttempts = 0 then 3 else c.maxAttempts
    shouldRetryCustom := c.shouldRetryCustom
    retryableStatusCodes := c.retryableStatusCodes.getD [429, 500, 502, 503, 504]
    onlyIdempotent := c.onlyIdempotent }

/-- `RetryPolicy.shouldRetry` (retry.go): the custom predicate if provided,
otherwise: any error retries; otherwise a response whose status code occurs
in `retryableStatusCodes` retries; otherwise no retry. -/
def shouldRetry (p : RetryPolicy) (resp : Option Resp) (err : Option GoErr) : Bool :=
  match p.shouldRetryCustom with
  | some f => f resp err
  | none =>
    if err.isSome then true
    else
      match resp with
      | some r => p.retryableStatusCodes.contains r.statusCode
      | none => false

/-- The body-close block of `RetryPolicy.Execute` (retry.go): before the next
attempt (and also after the final retriable attempt) a present response body
is drained (`io.Copy(io.Discard, ...)`) and closed. -/
def closeRespBody (o : Option Resp) : Option Resp :=
  match o with
  | some r =>
      if r.hasBody then some { r with bodyDrained := true, bodyClosed := true }
      else some r
  | none => none

/-- Result of one `RetryPolicy.Execute` run: what is returned plus the number
of calls made to `next`. -/
structure RetryResult where
  resp : Option Resp
  err : Option GoErr
  calls : Nat
deriving DecidableEq

/-- The attempt loop of `RetryPolicy.Execute` (retry.go lines 85-125).
`next i` is the outcome of the `(i+1)`-th invocation of `next`;
`waitCancelled i` tells whether the `select` after attempt `i` is won by
`ctx.Done()` rather than `time.After`; `ctxErr` is `ctx.Err()` then.
`remaining` is the number of loop iterations still allowed
(`maxAttempts - attempt` at entry); a start with `remaining = 0` falls
straight through to the exhaustion return with nil `lastResp`/`lastErr`. -/
def retryLoop (p : RetryPolicy) (next : Nat → Attempt) (waitCancelled : Nat → Bool)
    (ctxErr : GoErr) : Nat → Nat → RetryResult
  | _, 0 => { resp := none, err := some (goJoin none maxRetriesErr), calls := 0 }
  | attempt, remaining + 1 =>
      let a := next attempt
      if ¬ shouldRetry p a.resp a.err then
        { resp := a.resp, err := a.err, calls := 1 }
      else
        let closed := closeRespBody a.resp
        if remaining = 0 then
          { resp := closed, err := some (goJoin a.err maxRetriesErr), calls := 1 }
        else if waitCancelled attempt then
          { resp := none, err := some ctxErr, calls := 1 }
        else
          let r := retryLoop p next waitCancelled ctxErr (attempt + 1) remaining
          { resp := r.resp, err := r.err, calls := r.calls + 1 }

/-- `RetryPolicy.Execute` (retry.go): the idempotency gate first (a single
pass-through call for non-idempotent methods when `onlyIdempotent`), then the
body buffering (an unreadable body aborts before any attempt), then the
attempt loop. -/
def retryExecute (p : RetryPolicy) (req : Request) (next : Nat → Attempt)
    (waitCancelled : Nat → Bool) (ctxErr : GoErr) : RetryResult :=
  if p.onlyIdempotent ∧ ¬ isIdempotent req.method then
    let a := next 0
    { resp := a.resp, err := a.err, calls := 1 }
  else
    match req.body with
    | some (.failing e) => { resp := none, err := some e, calls := 0 }
    | _ => retryLoop p next waitCancelled ctxErr 0 p.maxAttempts.toNat

/-! ## Circuit breaker policy (circuitbreaker.go) -/

/-- The three `CircuitState` values.  (`opened` stands for `StateOpen`.) -/
inductive CBState where
  | closed
  | opened
  | halfOpen
deriving DecidableEq

/-- `CircuitBreakerConfig`, restricted to the fields `circuitBreaker`
consults.  The custom `ShouldTrip` predicate lives on the policy, below. -/
structure CBConfig where
  errorThreshold : Nat
  minRequests : Nat
  sleepWindow : Nat
  successThreshold : Nat
deriving DecidableEq

/-- The per-host `circuitBreaker` record. -/
structure Breaker where
  state : CBState
  failures : Nat
  successes : Nat
  requests : Nat
  lastStateChange : Nat
  config : CBConfig
deriving DecidableEq

/-- `circuitBreaker.canExecute` (circuitbreaker.go): returns whether the
request may proceed together with the (possibly transitioned) breaker.
In `StateOpen`, `time.Since(lastStateChange) > SleepWindow` (strictly) moves
the breaker to half-open with all counters reset; otherwise it fails fast. -/
def canExecute (b : Breaker) (now : Nat) : Bool × Breaker :=
  match b.state with
  | .closed => (true, b)
  | .opened =>
      if now - b.lastStateChange > b.config.sleepWindow then
        (true, { b with state := .halfOpen, successes := 0, failures := 0,
                        requests := 0, lastStateChange := now })
      else (false, b)
  | .halfOpen => (true, b)

/-- `circuitBreaker.handleFailure` (circuitbreaker.go). -/
def handleFailure (b : Breaker) (now : Nat) : Breaker :=
  match b.state with
  | .closed =>
      if b.requests ≥ b.config.minRequests then
        if b.failures * 100 / b.requests ≥ b.config.errorThreshold then
          { b with state := .opened, lastStateChange := now }
        else b
      else b
  | .halfOpen =>
      { b with state := .opened, successes := 0, failures := 0,
               requests := 0, lastStateChange := now }
  | .opened => b

/-- `circuitBreaker.handleSuccess` (circuitbreaker.go): only the half-open
state reacts to a success. -/
def handleSuccess (b : Breaker) (now : Nat) : Breaker :=
  match b.state with
  | .halfOpen =>
      if b.successes ≥ b.config.successThreshold then
        { b with state := .closed, successes := 0, failures := 0,
                 requests := 0, lastStateChange := now }
      else b
  | _ => b

/-- `circuitBreaker.recordResult` (circuitbreaker.go): bump `requests`, then
bump the matching tally and dispatch on the state. -/
def recordResult (b : Breaker) (isFailure : Bool) (now : Nat) : Breaker :=
  let b1 := { b with requests := b.requests + 1 }
  if isFailure then handleFailure { b1 with failures := b1.failures + 1 } now
  else handleSuccess { b1 with successes := b1.successes + 1 } now

/-- `CircuitBreakerPolicy.shouldTrip` (circuitbreaker.go): custom predicate if
provided; otherwise any error, or any response with a 5xx status, trips. -/
def shouldTrip (custom : Option (Option Resp → Option GoErr → Bool))
    (resp : Option Resp) (err : Option GoErr) : Bool :=
  match custom with
  | some f => f resp err
  | none =>
    if err.isSome then true
    else
      match resp with
      | some r => r.statusCode ≥ 500
      | none => false

/-- Result of one `CircuitBreakerPolicy.Execute` run.  `breakerDuring` is the
breaker as it stands while `next` runs (after `canExecute`), `breakerAfter`
the breaker after `recordResult` (or unchanged on short-circuit). -/
structure CBResult where
  resp : Option Resp
  err : Option GoErr
  calls : Nat
  breakerDuring : Breaker
  breakerAfter : Breaker
deriving DecidableEq

/-- `CircuitBreakerPolicy.Execute` (circuitbreaker.go) for the breaker of the
request's host.  `now1` is the clock at `canExecute`, `now2` the (later)
clock at `recordResult`. -/
def cbExecute (b : Breaker) (custom : Option (Option Resp → Option GoErr → Bool))
    (next : Attempt) (now1 now2 : Nat) : CBResult :=
  let (ok, b1) := canExecute b now1
  if ok then
    let b2 := recordResult b1 (shouldTrip custom next.resp next.err) now2
    { resp := next.resp, err := next.err, calls := 1,
      breakerDuring := b1, breakerAfter := b2 }
  else
    { resp := none, err := some circuitOpenErr, calls := 0,
      breakerDuring := b1, breakerAfter := b1 }

/-! ## Timeout policy (timeout.go) -/

/-- The configuration of a constructed `TimeoutPolicy`: the per-request
timeout duration. -/
structure TimeoutPolicy where
  request : Nat
deriving DecidableEq

/-- `context.WithTimeout(ctx, d)` at clock `now`: the deadline of the derived
context.  A parent deadline earlier than `now + d` is kept, so the effective
deadline is the minimum of the two. -/
def withTimeoutDeadline (parent : Option Nat) (now d : Nat) : Option Nat :=
  match parent with
  | none => some (now + d)
  | some pd => some (min pd (now + d))

/-- Result of one `TimeoutPolicy.Execute` run.  `derivedDeadline` is the
deadline of the context handed to `next`; `cancelReleased` records that the
deferred `cancel()` of the derived context ran before returning. -/
structure TimeoutResult where
  resp : Option Resp
  err : Option GoErr
  derivedDeadline : Option Nat
  cancelReleased : Bool
deriving DecidableEq

/-- `TimeoutPolicy.Execute` (timeout.go): derive a context via
`context.WithTimeout`, call `next` with it, and remap a returned error that
`errors.Is`-matches `context.DeadlineExceeded` to the policy's timeout error
with a nil response; everything else passes through unchanged.  The deferred
`cancel()` runs on every path. -/
def timeoutExecute (p : TimeoutPolicy) (parent : Option Nat) (now : Nat)
    (next : Option Nat → Attempt) : TimeoutResult :=
  let tctx := withTimeoutDeadline parent now p.request
  let a := next tctx
  match a.err with
  | some e =>
      if errsIs e .deadlineExceeded then
        { resp := none, err := some timeoutErr,
          derivedDeadline := tctx, cancelReleased := true }
      else
        { resp := a.resp, err := a.err,
          derivedDeadline := tctx, cancelReleased := true }
  | none =>
      { resp := a.resp, err := a.err,
        derivedDeadline := tctx, cancelReleased := true }

/-! ## Bulkhead policy (bulkhead.go) -/

/-- One `bulkhead` semaphore: `count` is `len(semaphore)` (tokens currently
held), `maxSize` its capacity `MaxConcurrent`. -/
structure Bulkhead where
  count : Nat
  maxSize : Nat
deriving DecidableEq

/-- Result of one `BulkheadPolicy.Execute` run.  `countDuring` is the token
count while `next` runs (`none` when `next` is not invoked); `countAfter` is
the count once the deferred release has run. -/
structure BulkheadResult where
  resp : Option Resp
  err : Option GoErr
  calls : Nat
  countDuring : Option Nat
  countAfter : Nat
deriving DecidableEq

/-- `BulkheadPolicy.Execute` (bulkhead.go) against the relevant semaphore:
the non-blocking send succeeds iff the buffered channel is not full
(`count < maxSize`); on success one token is held for the duration of `next`
and released by the deferred receive on every exit path; on failure the
bulkhead-full error is returned without invoking `next`. -/
def bulkheadExecute (b : Bulkhead) (next : Attempt) : BulkheadResult :=
  if b.count < b.maxSize then
    { resp := next.resp, err := next.err, calls := 1,
      countDuring := some (b.count + 1), countAfter := b.count }
  else
    { resp := none, err := some bulkheadFullErr, calls := 0,
      countDuring := none, countAfter := b.count }

/-! ## Policy chain (metrics.go, `Chain`)

To make "number of terminal transport calls" observable, executors thread a
call counter: an `ExecutorC` takes the context deadline, the request and the
count so far, and returns its outcome together with the new count.  A policy
receives its `next` executor the same way. -/

/-- Instrumented `Executor`. -/
def ExecutorC : Type :=
  Option Nat → Request → Nat → (Option Resp × Option GoErr) × Nat

/-- Instrumented `Policy.Execute`. -/
def PolicyC : Type :=
  Option Nat → Request → ExecutorC → Nat → (Option Resp × Option GoErr) × Nat

/-- `Chain` (metrics.go): start from the final executor and wrap each policy
around the current executor, iterating from the last policy to the first. -/
def chain (policies : List PolicyC) (final : ExecutorC) : ExecutorC :=
  policies.reverse.foldl
    (fun executor policy => fun ctx req k => policy ctx req executor k) final

/-- A terminal transport `T.do` lifted to an instrumented executor that
counts its own invocations. -/
def countingFinal (t : Option Nat → Request → Option Resp × Option GoErr) : ExecutorC :=
  fun ctx req k => (t ctx req, k + 1)

/-- A policy is state-honest when it can only touch the call counter through
its `next`: whenever `next` preserves the counter, so does the policy.
Every policy obtained from real `Policy.Execute` code has this property,
since the counter instruments only the terminal transport. -/
def HonestPolicy (p : PolicyC) : Prop :=
  ∀ ctx req next k, (∀ c r j, (next c r j).2 = j) → (p ctx req next k).2 = k

/-- A policy short-circuits when its result does not depend on `next` at all
(it never calls `next`). -/
def IgnoresNext (p : PolicyC) : Prop :=
  ∀ ctx req next next' k, p ctx req next k = p ctx req next' k

/-- Modelled from the spec: section 4.2 classifies as network errors exactly the
transport I/O failures (connection refusal, DNS, TLS, reset — the `netErr`
values here) together with context cancellation/expiry.  Used to state what
the default retry predicate is claimed to test. -/
def isNetworkError : GoErr → Bool
  | .netErr _ _ => true
  | .deadlineExceeded => true
  | .canceled => true
  | _ => false

/-! ## Helper lemmas -/

/-- `errors.Is` finds an error in itself. -/
theorem errsIs_self (e : GoErr) : errsIs e e = true := by
  cases e <;> simp [errsIs]

/-- When the gate lets the request through and the body buffers without
error, `RetryPolicy.Execute` is the attempt loop started at attempt 0 with
`maxAttempts` iterations allowed. -/
theorem retryExecute_eq_loop (p : RetryPolicy) (req : Request) (next : Nat → Attempt)
    (wc : Nat → Bool) (ctxErr : GoErr)
    (hgate : p.onlyIdempotent = false ∨ isIdempotent req.method = true)
    (hbody : ∀ e, req.body ≠ some (.failing e)) :
    retryExecute p req next wc ctxErr = retryLoop p next wc ctxErr 0 p.maxAttempts.toNat := by
  unfold retryExecute
  have hc : ¬ (p.onlyIdempotent ∧ ¬ isIdempotent req.method) := by
    rcases hgate with h | h <;> simp [h]
  rw [if_neg hc]
  cases hb : req.body with
  | none => rfl
  | some bs =>
    cases bs with
    | bytes d => rfl
    | failing e => exact absurd hb (hbody e)

/-- When every attempt's outcome is retriable and no backoff wait is cut
short by cancellation, the attempt loop runs all its iterations, returns the
final attempt's response with its body drained and closed, joins the final
attempt's error with the exhaustion error, and makes one `next` call per
iteration. -/
theorem retryLoop_all_retry (p : RetryPolicy) (next : Nat → Attempt)
    (wc : Nat → Bool) (ctxErr : GoErr)
    (hretry : ∀ i, shouldRetry p (next i).resp (next i).err = true)
    (hwc : ∀ i, wc i = false) :
    ∀ n start, 1 ≤ n →
      retryLoop p next wc ctxErr start n =
        { resp := closeRespBody (next (start + n - 1)).resp
          err := some (goJoin (next (start + n - 1)).err maxRetriesErr)
          calls := n } := by
  intro n
  induction n with
  | zero => intro start h; omega
  | succ m ih =>
    intro start _
    show retryLoop p next wc ctxErr start (m + 1) = _
    rw [retryLoop]
    simp only [hretry start, not_true_eq_false, if_false]
    cases m with
    | zero => simp
    | succ k =>
      have hm : ¬ (k + 1 = 0) := by omega
      simp only [hm, if_false, hwc start, Bool.false_eq_true, ih (start + 1) (by omega)]
      have harith : start + 1 + (k + 1) - 1 = start + (k + 1 + 1) - 1 := by omega
      simp [harith]

/-! ## Claim theorems -/

/-- Claim C1, code-bug evaluation.  A retry policy built from a configuration
that leaves `OnlyIdempotent` unset keeps the Go zero value `false` —
`NewRetryPolicy` applies no default despite the field's doc comment saying
"Default: true" — and therefore a POST request whose attempts all fail with a
retriable error is attempted `MaxAttempts` = 3 times, not once as the claim
(and the documented default) require. -/
theorem retry_post_unset_gate_three_calls :
    (newRetryPolicy ⟨3, none, none, false⟩).onlyIdempotent = false ∧
    (retryExecute (newRetryPolicy ⟨3, none, none, false⟩) ⟨"POST", none⟩
        (fun _ => ⟨none, some (.netErr 7 "connection refused")⟩)
        (fun _ => false) .canceled).calls = 3 := by
  decide

/-- Claim C4, confirmed.  For a retry policy with `MaxAttempts = N ≥ 1`, a
request that passes the idempotency gate with a readable (or absent) body,
and a `next` that fails with a retriable outcome on every invocation while no
backoff wait is interrupted, `Execute` invokes `next` exactly `N` times. -/
theorem retry_always_retriable_maxAttempts_calls
    (p : RetryPolicy) (req : Request) (next : Nat → Attempt)
    (wc : Nat → Bool) (ctxErr : GoErr) (N : Nat)
    (hN : 1 ≤ N) (hmax : p.maxAttempts = (N : Int))
    (hgate : p.onlyIdempotent = false ∨ isIdempotent req.method = true)
    (hbody : ∀ e, req.body ≠ some (.failing e))
    (_herr : ∀ i, ((next i).err).isSome = true)
    (hretry : ∀ i, shouldRetry p (next i).resp (next i).err = true)
    (hwc : ∀ i, wc i = false) :
    (retryExecute p req next wc ctxErr).calls = N := by
  rw [retryExecute_eq_loop p req next wc ctxErr hgate hbody]
  have ht : p.maxAttempts.toNat = N := by omega
  rw [ht, retryLoop_all_retry p next wc ctxErr hretry hwc N 0 hN]

/-- Witness for C4: `MaxAttempts = 2`, a GET request and an always-failing
transport make exactly 2 calls. -/
theorem retry_always_retriable_maxAttempts_calls_witness :
    (retryExecute (newRetryPolicy ⟨2, none, none, false⟩) ⟨"GET", none⟩
        (fun _ => ⟨none, some (.netErr 7 "connection reset")⟩)
        (fun _ => false) .canceled).calls = 2 :=
  retry_always_retriable_maxAttempts_calls (newRetryPolicy ⟨2, none, none, false⟩)
    ⟨"GET", none⟩ (fun _ => ⟨none, some (.netErr 7 "connection reset")⟩)
    (fun _ => false) .canceled 2
    (by decide) (by decide) (Or.inl rfl) (by intro e h; cases h)
    (fun _ => rfl) (fun _ => rfl) (fun _ => rfl)

/-- Claim C8, confirmed.  When the attempt budget is exhausted while the retry
predicate still wanted to retry, and the last attempt produced the error
`e`, the returned error is `errors.Join(e, max-retries error)`; by `errors.Is`
it reaches both the last cause `e` and the max-retries-exceeded error. -/
theorem retry_exhaustion_wraps_last_cause
    (p : RetryPolicy) (req : Request) (next : Nat → Attempt)
    (wc : Nat → Bool) (ctxErr : GoErr) (N : Nat) (e : GoErr)
    (hN : 1 ≤ N) (hmax : p.maxAttempts = (N : Int))
    (hgate : p.onlyIdempotent = false ∨ isIdempotent req.method = true)
    (hbody : ∀ e', req.body ≠ some (.failing e'))
    (hretry : ∀ i, shouldRetry p (next i).resp (next i).err = true)
    (hwc : ∀ i, wc i = false)
    (hlast : (next (N - 1)).err = some e) :
    (retryExecute p req next wc ctxErr).err = some (.join2 e maxRetriesErr) ∧
    errsIs (.join2 e maxRetriesErr) e = true ∧
    errsIs (.join2 e maxRetriesErr) maxRetriesErr = true := by
  rw [retryExecute_eq_loop p req next wc ctxErr hgate hbody]
  have ht : p.maxAttempts.toNat = N := by omega
  rw [ht, retryLoop_all_retry p next wc ctxErr hretry hwc N 0 hN]
  refine ⟨?_, ?_, ?_⟩
  · simp only [Nat.zero_add, hlast, goJoin]
  · simp [errsIs, errsIs_self]
  · simp [errsIs, errsIs_self, maxRetriesErr]

/-- Witness for C8: two always-failing attempts surface the join of the last
network error with the max-retries error. -/
theorem retry_exhaustion_wraps_last_cause_witness :
    (retryExecute (newRetryPolicy ⟨2, none, none, false⟩) ⟨"GET", none⟩
        (fun _ => ⟨none, some (.netErr 7 "connection reset")⟩)
        (fun _ => false) .canceled).err
      = some (.join2 (.netErr 7 "connection reset") maxRetriesErr) :=
  (retry_exhaustion_wraps_last_cause (newRetryPolicy ⟨2, none, none, false⟩)
    ⟨"GET", none⟩ (fun _ => ⟨none, some (.netErr 7 "connection reset")⟩)
    (fun _ => false) .canceled 2 (.netErr 7 "connection reset")
    (by decide) (by decide) (Or.inl rfl) (by intro e h; cases h)
    (fun _ => rfl) (fun _ => rfl) rfl).1

/-- Claim C10, confirmed.  When the attempt budget is exhausted and the final
attempt produced a retriable response carrying a body, the response returned
alongside the non-nil error is that final response with its body already
drained and closed inside the policy. -/
theorem retry_exhaustion_body_drained_closed
    (p : RetryPolicy) (req : Request) (next : Nat → Attempt)
    (wc : Nat → Bool) (ctxErr : GoErr) (N : Nat) (r : Resp)
    (hN : 1 ≤ N) (hmax : p.maxAttempts = (N : Int))
    (hgate : p.onlyIdempotent = false ∨ isIdempotent req.method = true)
    (hbody : ∀ e', req.body ≠ some (.failing e'))
    (hretry : ∀ i, shouldRetry p (next i).resp (next i).err = true)
    (hwc : ∀ i, wc i = false)
    (hlast : (next (N - 1)).resp = some r)
    (hb : r.hasBody = true) :
    (retryExecute p req next wc ctxErr).resp =
      some { r with bodyDrained := true, bodyClosed := true } ∧
    ((retryExecute p req next wc ctxErr).err).isSome = true := by
  rw [retryExecute_eq_loop p req next wc ctxErr hgate hbody]
  have ht : p.maxAttempts.toNat = N := by omega
  rw [ht, retryLoop_all_retry p next wc ctxErr hretry hwc N 0 hN]
  constructor
  · simp only [Nat.zero_add, hlast, closeRespBody, hb, if_true]
  · simp

/-- Witness for C10: an always-503 transport with bodies; the returned
response is the last 503 with a drained, closed body. -/
theorem retry_exhaustion_body_drained_closed_witness :
    (retryExecute (newRetryPolicy ⟨3, none, none, false⟩) ⟨"GET", none⟩
        (fun _ => ⟨some ⟨503, true, false, false⟩, none⟩)
        (fun _ => false) .canceled).resp = some ⟨503, true, true, true⟩ :=
  (retry_exhaustion_body_drained_closed (newRetryPolicy ⟨3, none, none, false⟩)
    ⟨"GET", none⟩ (fun _ => ⟨some ⟨503, true, false, false⟩, none⟩)
    (fun _ => false) .canceled 3 ⟨503, true, false, false⟩
    (by decide) (by decide) (Or.inl rfl) (by intro e h; cases h)
    (fun _ => rfl) (fun _ => rfl) rfl rfl).1

/-- Incrementing both tallies cannot drop the integer error rate below a
threshold it already meets, provided failures do not exceed requests (an
invariant of the breaker: every failure increment is paired with a request
increment and resets zero both). -/
theorem rate_step_le (f r t : Nat) (hfr : f ≤ r) (h : t ≤ f * 100 / r) :
    t ≤ (f + 1) * 100 / (r + 1) := by
  rcases Nat.eq_zero_or_pos r with hr | hr
  · subst hr
    simp only [Nat.div_zero, Nat.le_zero] at h
    omega
  · have h2 : t * r ≤ f * 100 := (Nat.le_div_iff_mul_le hr).mp h
    have h3 : t ≤ 100 := by
      have hd : f * 100 / r ≤ r * 100 / r :=
        Nat.div_le_div_right (Nat.mul_le_mul_right 100 hfr)
      have hrr : r * 100 / r = 100 := by
        rw [Nat.mul_comm, Nat.mul_div_cancel 100 hr]
      omega
    refine (Nat.le_div_iff_mul_le (by omega)).mpr ?_
    calc t * (r + 1) = t * r + t := by ring
      _ ≤ f * 100 + 100 := by omega
      _ = (f + 1) * 100 := by ring

/-- Claim C2, counterexample.  A closed breaker with `MinRequests = 1`,
`ErrorThreshold = 50` and counters `requests = 1`, `failures = 1` satisfies
the claim's precondition (`1 ≥ 1` and `100 ≥ 50`), yet recording a *success*
leaves it Closed, not Open: `handleSuccess` never transitions out of the
Closed state. -/
theorem cb_success_keeps_closed_cex :
    (Breaker.mk .closed 1 0 1 0 ⟨50, 1, 5, 2⟩).config.minRequests
        ≤ (Breaker.mk .closed 1 0 1 0 ⟨50, 1, 5, 2⟩).requests ∧
    (Breaker.mk .closed 1 0 1 0 ⟨50, 1, 5, 2⟩).config.errorThreshold
        ≤ (Breaker.mk .closed 1 0 1 0 ⟨50, 1, 5, 2⟩).failures * 100
            / (Breaker.mk .closed 1 0 1 0 ⟨50, 1, 5, 2⟩).requests ∧
    (recordResult (Breaker.mk .closed 1 0 1 0 ⟨50, 1, 5, 2⟩) false 7).state = .closed ∧
    (recordResult (Breaker.mk .closed 1 0 1 0 ⟨50, 1, 5, 2⟩) false 7).state ≠ .opened := by
  decide

/-- Claim C2, amended.  For a closed breaker whose counters already meet the
trip condition (`requests ≥ MinRequests` and `failures × 100 / requests ≥
ErrorThreshold`, with `failures ≤ requests` as the breaker maintains),
recording the next *failure* moves it to Open, records the transition
timestamp, and keeps the incremented counters.  (Recording a success leaves
it Closed — see the counterexample.) -/
theorem cb_trip_condition_next_failure_opens (b : Breaker) (now : Nat)
    (hstate : b.state = .closed)
    (hmin : b.config.minRequests ≤ b.requests)
    (hrate : b.config.errorThreshold ≤ b.failures * 100 / b.requests)
    (hfr : b.failures ≤ b.requests) :
    (recordResult b true now).state = .opened ∧
    (recordResult b true now).lastStateChange = now ∧
    (recordResult b true now).failures = b.failures + 1 ∧
    (recordResult b true now).requests = b.requests + 1 := by
  have hmin' : b.config.minRequests ≤ b.requests + 1 := Nat.le_succ_of_le hmin
  have hrate' : b.config.errorThreshold ≤ (b.failures + 1) * 100 / (b.requests + 1) :=
    rate_step_le b.failures b.requests b.config.errorThreshold hfr hrate
  simp only [recordResult, if_true, handleFailure, hstate]
  simp [hstate, hmin', hrate']

/-- Witness for C2: a breaker at 5 failures / 10 requests with
`MinRequests = 10`, `ErrorThreshold = 50` opens on the 11th result being a
failure. -/
theorem cb_trip_condition_next_failure_opens_witness :
    (recordResult (Breaker.mk .closed 5 0 10 0 ⟨50, 10, 5, 2⟩) true 42).state = .opened ∧
    (recordResult (Breaker.mk .closed 5 0 10 0 ⟨50, 10, 5, 2⟩) true 42).lastStateChange = 42 :=
  ⟨(cb_trip_condition_next_failure_opens (Breaker.mk .closed 5 0 10 0 ⟨50, 10, 5, 2⟩) 42
      rfl (by decide) (by decide) (by decide)).1,
   (cb_trip_condition_next_failure_opens (Breaker.mk .closed 5 0 10 0 ⟨50, 10, 5, 2⟩) 42
      rfl (by decide) (by decide) (by decide)).2.1⟩

/-- Claim C3, counterexample.  At exactly `t − transition_time = SleepWindow`
(breaker opened at time 0, `SleepWindow = 5`, request at `t = 5`) the claim
says the request proceeds as the half-open probe, but `canExecute` requires
strictly more than the sleep window to have elapsed, so the request is
rejected with the circuit-open error and `next` is never invoked. -/
theorem cb_open_boundary_cex :
    5 - (Breaker.mk .opened 0 0 0 0 ⟨50, 10, 5, 2⟩).lastStateChange
        ≥ (Breaker.mk .opened 0 0 0 0 ⟨50, 10, 5, 2⟩).config.sleepWindow ∧
    (cbExecute (Breaker.mk .opened 0 0 0 0 ⟨50, 10, 5, 2⟩) none ⟨none, none⟩ 5 5).calls = 0 ∧
    (cbExecute (Breaker.mk .opened 0 0 0 0 ⟨50, 10, 5, 2⟩) none ⟨none, none⟩ 5 5).err
      = some circuitOpenErr := by
  decide

/-- Claim C3, amended.  For an open breaker: while `t − transition_time ≤
SleepWindow` every request is rejected with the circuit-open error, `next` is
not invoked and the breaker is unchanged; the first request with
`t − transition_time > SleepWindow` (strictly) proceeds to `next` exactly
once, with the breaker half-open and its failure/success/request counters
reset while that call runs, returning `next`'s outcome unchanged. -/
theorem cb_open_sleep_window_gate (b : Breaker)
    (custom : Option (Option Resp → Option GoErr → Bool)) (next : Attempt)
    (now1 now2 : Nat) (hstate : b.state = .opened) :
    (now1 - b.lastStateChange ≤ b.config.sleepWindow →
      cbExecute b custom next now1 now2 =
        { resp := none, err := some circuitOpenErr, calls := 0,
          breakerDuring := b, breakerAfter := b }) ∧
    (b.config.sleepWindow < now1 - b.lastStateChange →
      (cbExecute b custom next now1 now2).calls = 1 ∧
      (cbExecute b custom next now1 now2).breakerDuring.state = .halfOpen ∧
      (cbExecute b custom next now1 now2).breakerDuring.failures = 0 ∧
      (cbExecute b custom next now1 now2).breakerDuring.successes = 0 ∧
      (cbExecute b custom next now1 now2).breakerDuring.requests = 0 ∧
      (cbExecute b custom next now1 now2).resp = next.resp ∧
      (cbExecute b custom next now1 now2).err = next.err) := by
  constructor
  · intro hle
    have hnot : ¬ (now1 - b.lastStateChange > b.config.sleepWindow) := by omega
    simp [cbExecute, canExecute, hstate, hnot]
  · intro hgt
    simp [cbExecute, canExecute, hstate, hgt]

/-- Witness for C3: a breaker opened at time 3 with `SleepWindow = 5`
rejects at `t = 8` and probes half-open at `t = 9`. -/
theorem cb_open_sleep_window_gate_witness :
    (cbExecute (Breaker.mk .opened 2 0 4 3 ⟨50, 10, 5, 2⟩) none ⟨some ⟨200, true, false, false⟩, none⟩ 8 8).calls = 0 ∧
    (cbExecute (Breaker.mk .opened 2 0 4 3 ⟨50, 10, 5, 2⟩) none ⟨some ⟨200, true, false, false⟩, none⟩ 9 9).calls = 1 ∧
    (cbExecute (Breaker.mk .opened 2 0 4 3 ⟨50, 10, 5, 2⟩) none ⟨some ⟨200, true, false, false⟩, none⟩ 9 9).breakerDuring.state = .halfOpen :=
  ⟨by
    rw [(cb_open_sleep_window_gate (Breaker.mk .opened 2 0 4 3 ⟨50, 10, 5, 2⟩) none
      ⟨some ⟨200, true, false, false⟩, none⟩ 8 8 rfl).1 (by decide)],
   ((cb_open_sleep_window_gate (Breaker.mk .opened 2 0 4 3 ⟨50, 10, 5, 2⟩) none
      ⟨some ⟨200, true, false, false⟩, none⟩ 9 9 rfl).2 (by decide)).1,
   (((cb_open_sleep_window_gate (Breaker.mk .opened 2 0 4 3 ⟨50, 10, 5, 2⟩) none
      ⟨some ⟨200, true, false, false⟩, none⟩ 9 9 rfl).2 (by decide)).2).1⟩

/-- The backwards construction loop of `Chain` is a right fold. -/
theorem chain_eq_foldr (ps : List PolicyC) (final : ExecutorC) :
    chain ps final
      = ps.foldr (fun policy executor => fun ctx req k => policy ctx req executor k) final := by
  unfold chain
  rw [List.foldl_reverse]
  rfl

/-- `Chain` of a non-empty list is the head policy executed with the chain of
the tail as its `next`. -/
theorem chain_cons (p : PolicyC) (ps : List PolicyC) (final : ExecutorC) :
    chain (p :: ps) final = fun ctx req k => p ctx req (chain ps final) k := by
  rw [chain_eq_foldr, chain_eq_foldr]
  rfl

/-- `Chain` splits over list append. -/
theorem chain_append (xs ys : List PolicyC) (final : ExecutorC) :
    chain (xs ++ ys) final = chain xs (chain ys final) := by
  rw [chain_eq_foldr, chain_eq_foldr, chain_eq_foldr, List.foldr_append]

/-- A chain of state-honest policies over a counter-preserving executor
preserves the counter. -/
theorem chain_counter_preserved (ps : List PolicyC) (E : ExecutorC)
    (hE : ∀ c r j, (E c r j).2 = j) :
    (∀ p ∈ ps, HonestPolicy p) → ∀ c r j, (chain ps E c r j).2 = j := by
  induction ps with
  | nil => intro _ c r j; exact hE c r j
  | cons p ps ih =>
    intro hps c r j
    rw [chain_cons]
    exact hps p (List.mem_cons_self p ps) c r (chain ps E) j
      (ih (fun q hq => hps q (List.mem_cons_of_mem p hq)))

/-- Claim C5, confirmed.  `Chain` satisfies the recurrence
`E = P₁.Execute(·, ·, Chain(P₂…Pₙ, T))` with `Chain([], T) = T`; and in a
chain of state-honest policies containing one policy that never consults its
`next`, the terminal executor is invoked zero times. -/
theorem chain_composition_spec :
    (∀ final : ExecutorC, chain [] final = final) ∧
    (∀ (p : PolicyC) (ps : List PolicyC) (final : ExecutorC),
        chain (p :: ps) final = fun ctx req k => p ctx req (chain ps final) k) ∧
    (∀ (pre post : List PolicyC) (p0 : PolicyC)
        (t : Option Nat → Request → Option Resp × Option GoErr)
        (ctx : Option Nat) (req : Request),
        (∀ q ∈ pre, HonestPolicy q) → HonestPolicy p0 → IgnoresNext p0 →
        (chain (pre ++ p0 :: post) (countingFinal t) ctx req 0).2 = 0) := by
  refine ⟨fun final => rfl, chain_cons, ?_⟩
  intro pre post p0 t ctx req hpre hhon hign
  rw [chain_append]
  have hinner : ∀ c r j, (chain (p0 :: post) (countingFinal t) c r j).2 = j := by
    intro c r j
    rw [chain_cons]
    show (p0 c r (chain post (countingFinal t)) j).2 = j
    rw [hign c r (chain post (countingFinal t)) (fun _ _ j' => ((none, none), j')) j]
    exact hhon c r (fun _ _ j' => ((none, none), j')) j (fun _ _ _ => rfl)
  exact chain_counter_preserved pre (chain (p0 :: post) (countingFinal t)) hinner hpre ctx req 0

/-- Witness for C5: a pass-through policy, a short-circuiting policy and
another pass-through around a counting terminal: the terminal sees 0 calls. -/
theorem chain_composition_spec_witness :
    (chain [fun ctx req next k => next ctx req k,
            fun _ _ _ k => ((none, some circuitOpenErr), k),
            fun ctx req next k => next ctx req k]
        (countingFinal (fun _ _ => (none, none))) none ⟨"GET", none⟩ 0).2 = 0 :=
  chain_composition_spec.2.2
    [fun ctx req next k => next ctx req k]
    [fun ctx req next k => next ctx req k]
    (fun _ _ _ k => ((none, some circuitOpenErr), k))
    (fun _ _ => (none, none)) none ⟨"GET", none⟩
    (by
      intro q hq
      simp only [List.mem_singleton] at hq
      subst hq
      intro ctx req next k hnext
      exact hnext ctx req k)
    (fun _ _ _ _ _ => rfl)
    (fun _ _ _ _ _ => rfl)

/-- Claim C6, confirmed.  The timeout policy hands `next` a context whose
deadline is `min(parent_deadline, now + Request)`, releases the derived
context's cancel resources on every path, replaces any returned error that
`errors.Is`-matches `context.DeadlineExceeded` by the policy's timeout error
with a nil response, and passes every other outcome through unchanged. -/
theorem timeout_execute_contract (p : TimeoutPolicy) (parent : Option Nat) (now : Nat)
    (next : Option Nat → Attempt) :
    (timeoutExecute p parent now next).derivedDeadline
        = some (min (parent.getD (now + p.request)) (now + p.request)) ∧
    (timeoutExecute p parent now next).cancelReleased = true ∧
    (∀ e, (next (withTimeoutDeadline parent now p.request)).err = some e →
      errsIs e .deadlineExceeded = true →
      (timeoutExecute p parent now next).resp = none ∧
      (timeoutExecute p parent now next).err = some timeoutErr) ∧
    ((∀ e, (next (withTimeoutDeadline parent now p.request)).err = some e →
        errsIs e .deadlineExceeded = false) →
      (timeoutExecute p parent now next).resp
          = (next (withTimeoutDeadline parent now p.request)).resp ∧
      (timeoutExecute p parent now next).err
          = (next (withTimeoutDeadline parent now p.request)).err) := by
  have hmin : withTimeoutDeadline parent now p.request
      = some (min (parent.getD (now + p.request)) (now + p.request)) := by
    cases parent <;> simp [withTimeoutDeadline]
  refine ⟨?_, ?_, ?_, ?_⟩
  · rw [← hmin]
    unfold timeoutExecute
    cases h : (next (withTimeoutDeadline parent now p.request)).err with
    | none => simp [h]
    | some e =>
      simp only [h]
      by_cases he : errsIs e .deadlineExceeded = true <;> simp [he]
  · unfold timeoutExecute
    cases h : (next (withTimeoutDeadline parent now p.request)).err with
    | none => simp [h]
    | some e =>
      simp only [h]
      by_cases he : errsIs e .deadlineExceeded = true <;> simp [he]
  · intro e he hdead
    unfold timeoutExecute
    simp [he, hdead]
  · intro hnone
    unfold timeoutExecute
    cases h : (next (withTimeoutDeadline parent now p.request)).err with
    | none => simp [h]
    | some e => simp [h, hnone e h]

/-- Witness for C6: `Request = 20`, parent deadline 50, entered at `now = 0`:
the derived deadline is 20, and a `context.DeadlineExceeded` from `next` is
remapped to the policy's timeout error with a nil response. -/
theorem timeout_execute_contract_witness :
    (timeoutExecute ⟨20⟩ (some 50) 0 (fun _ => ⟨none, some .deadlineExceeded⟩)).derivedDeadline
        = some 20 ∧
    (timeoutExecute ⟨20⟩ (some 50) 0 (fun _ => ⟨none, some .deadlineExceeded⟩)).resp = none ∧
    (timeoutExecute ⟨20⟩ (some 50) 0 (fun _ => ⟨none, some .deadlineExceeded⟩)).err
        = some timeoutErr := by
  have h := timeout_execute_contract ⟨20⟩ (some 50) 0 (fun _ => ⟨none, some .deadlineExceeded⟩)
  have hre := h.2.2.1 .deadlineExceeded rfl (by decide)
  exact ⟨by rw [h.1]; decide, hre.1, hre.2⟩

/-- Claim C7, confirmed.  Bulkhead: with the semaphore already at capacity
`Execute` returns the bulkhead-full error without invoking `next`; otherwise
it holds one extra token exactly while `next` runs (one single call), the
deferred release restores the count, and `next`'s outcome is returned. -/
theorem bulkhead_execute_contract (b : Bulkhead) (next : Attempt) :
    (b.maxSize ≤ b.count →
      bulkheadExecute b next =
        { resp := none, err := some bulkheadFullErr, calls := 0,
          countDuring := none, countAfter := b.count }) ∧
    (b.count < b.maxSize →
      bulkheadExecute b next =
        { resp := next.resp, err := next.err, calls := 1,
          countDuring := some (b.count + 1), countAfter := b.count }) := by
  constructor
  · intro h
    rw [bulkheadExecute, if_neg (by omega)]
  · intro h
    rw [bulkheadExecute, if_pos h]

/-- Witness for C7: a full semaphore (2 of 2) rejects; a free one (0 of 2)
admits, holds one token during the call and ends back at 0. -/
theorem bulkhead_execute_contract_witness :
    bulkheadExecute ⟨2, 2⟩ ⟨none, none⟩ =
      { resp := none, err := some bulkheadFullErr, calls := 0,
        countDuring := none, countAfter := 2 } ∧
    bulkheadExecute ⟨0, 2⟩ ⟨some ⟨200, true, false, false⟩, none⟩ =
      { resp := some ⟨200, true, false, false⟩, err := none, calls := 1,
        countDuring := some 1, countAfter := 0 } :=
  ⟨(bulkhead_execute_contract ⟨2, 2⟩ ⟨none, none⟩).1 (by decide),
   (bulkhead_execute_contract ⟨0, 2⟩ ⟨some ⟨200, true, false, false⟩, none⟩).2 (by decide)⟩

/-- Claim C9, counterexample.  The default predicate retries *any* non-nil
error: fed the timeout policy's own error — not a network error — it answers
"retry", while the claim requires non-network errors not to be retried. -/
theorem default_retry_nonnetwork_error_cex :
    shouldRetry (newRetryPolicy ⟨0, none, none, false⟩) none (some timeoutErr) = true ∧
    isNetworkError timeoutErr = false := by
  decide

/-- Claim C9, amended.  With no custom predicate and the default status list,
the retry decision is: retry iff the attempt produced *any* non-nil error,
or a response whose status code is one of 429, 500, 502, 503, 504. -/
theorem default_retry_characterization (c : RetryConfig) (resp : Option Resp)
    (err : Option GoErr)
    (hcustom : c.shouldRetryCustom = none) (hcodes : c.retryableStatusCodes = none) :
    shouldRetry (newRetryPolicy c) resp err = true ↔
      err ≠ none ∨ ∃ r, resp = some r ∧
        (r.statusCode = 429 ∨ r.statusCode = 500 ∨ r.statusCode = 502 ∨
         r.statusCode = 503 ∨ r.statusCode = 504) := by
  unfold shouldRetry newRetryPolicy
  simp only [hcustom, hcodes]
  cases err with
  | some e => simp
  | none =>
    cases resp with
    | none => simp
    | some r =>
      simp [List.contains_eq_any_beq, List.any_eq_true, beq_iff_eq]

/-- Witness for C9: a 502 response with no error is retried. -/
theorem default_retry_characterization_witness :
    shouldRetry (newRetryPolicy ⟨0, none, none, false⟩)
        (some ⟨502, true, false, false⟩) none = true :=
  (default_retry_characterization ⟨0, none, none, false⟩
      (some ⟨502, true, false, false⟩) none rfl rfl).mpr
    (Or.inr ⟨⟨502, true, false, false⟩, rfl, Or.inr (Or.inr (Or.inl rfl))⟩)
